import Mathlib

/-!
Shallow embedding of the contact-form request handler found in
`src/app/api/contact/route.js` (and its CORS-less variant `src/unnamed/part_000`).

The handler `POST` is modelled as a pure function from an environment (the
outcomes of the two outbound HTTP calls and the relevant configuration
variables), a request, the process-wide rate-limit map and the current time,
to a result record together with the updated rate-limit map.  JSON values are
modelled by the inductive `JsValue` with JavaScript truthiness; the sanitizer
(`trim`, the global replace of the regex `<[^>]*>` by the empty string, and the
500-character cap with the ` ...[truncated]` marker) is modelled character-list
to character-list.  Strings are modelled as `List Char`; `.length` in the
source counts UTF-16 code units while here it counts characters, which agrees
on all inputs discussed by the specification.
-/

namespace ContactRoute

/-- `WINDOW_MS` from route.js line 8: the sliding-window width in milliseconds. -/
def WINDOW_MS : Int := 10000

/-- `MAX_REQUESTS` from route.js line 9: the admission limit per window. -/
def MAX_REQUESTS : Nat := 3

/-- The truncation marker appended by route.js line 70. -/
def TRUNCATION_MARKER : List Char := " ...[truncated]".data

/-- A JavaScript value as far as the handler inspects one: the parsed JSON
body and its fields.  (Arrays are not modelled; for the handler they behave
like objects without the two consulted fields.  `num` carries an `Int`; the
handler never does arithmetic on body fields, only truthiness tests.) -/
inductive JsValue where
  | undefinedV
  | null
  | bool (b : Bool)
  | num (n : Int)
  | str (s : List Char)
  | obj (fields : List (String × JsValue))

/-- JavaScript truthiness, as used by `!message`, `!turnstileToken`, `body || {}`. -/
def JsValue.truthy : JsValue → Bool
  | .undefinedV => false
  | .null => false
  | .bool b => b
  | .num n => decide (¬ n = 0)
  | .str s => !s.isEmpty
  | .obj _ => true

/-- `typeof v === "string"`. -/
def JsValue.isString : JsValue → Bool
  | .str _ => true
  | _ => false

/-- The character list of a string value (only consulted when `isString`). -/
def JsValue.asString : JsValue → List Char
  | .str s => s
  | _ => []

/-- First-match association-list lookup for object fields; absent keys give
`undefined`. -/
def lookupField : List (String × JsValue) → String → JsValue
  | [], _ => .undefinedV
  | (k, v) :: rest, key => if k = key then v else lookupField rest key

/-- Property access `v[key]` as used by the destructuring
`const { message, turnstileToken } = body`: fields of objects, `undefined` on
every modelled primitive. -/
def JsValue.getField : JsValue → String → JsValue
  | .obj fields, key => lookupField fields key
  | _, _ => .undefinedV

/-- Whitespace recognised by JavaScript `String.prototype.trim` (the ASCII
whitespace characters plus no-break space and the byte-order mark; the
remaining Unicode space separators are not modelled). -/
def jsWhitespace (c : Char) : Bool :=
  c == ' ' || c == '\t' || c == '\n' || c == '\r' ||
  c == '\x0b' || c == '\x0c' || c == '\u00A0' || c == '\uFEFF'

/-- `message.trim()` from route.js line 67: drop whitespace from both ends. -/
def trim (l : List Char) : List Char :=
  ((l.dropWhile jsWhitespace).reverse.dropWhile jsWhitespace).reverse

/-- The suffix right after the first `'>'` of a list, when one exists.  This is
where a regex match `<[^>]*>` started just before the list would end: the class
`[^>]*` cannot cross a `'>'`, so the match always ends at the first `'>'`. -/
def afterGt : List Char → Option (List Char)
  | [] => none
  | c :: rest => if c = '>' then some rest else afterGt rest

/-- One left-to-right pass of `cleanMsg.replace(/<[^>]*>/g, "")` from route.js
line 68, with explicit fuel to make the recursion structural.  At a `'<'` that
is followed by some `'>'` the whole match is dropped and scanning resumes after
the `'>'`; a `'<'` with no later `'>'` can start no match, and since the rest of
the input then holds no `'>'` at all, no later position can either, so the
remainder is emitted unchanged.  Fuel at least the length of the list always
suffices (each recursive call strictly shrinks the list). -/
def stripTagsAux : List Char → Nat → List Char
  | [], _ => []
  | l, 0 => l
  | c :: rest, fuel + 1 =>
    if c = '<' then
      (match afterGt rest with
       | none => c :: rest
       | some rest' => stripTagsAux rest' fuel)
    else c :: stripTagsAux rest fuel

/-- `cleanMsg.replace(/<[^>]*>/g, "")`: remove every substring matching the
HTML-tag pattern. -/
def stripTags (l : List Char) : List Char :=
  stripTagsAux l l.length

/-- The sanitizer of route.js lines 67–71: trim, strip tag-like substrings,
then cap at 500 characters appending the truncation marker. -/
def sanitize (message : List Char) : List Char :=
  let stripped := stripTags (trim message)
  if 500 < stripped.length then stripped.take 500 ++ TRUNCATION_MARKER
  else stripped

/-- Does the needle occur at the start of the haystack? -/
def beginsWith : List Char → List Char → Bool
  | [], _ => true
  | _ :: _, [] => false
  | c :: ns, d :: hs => c == d && beginsWith ns hs

/-- `haystack.includes(needle)`: does the needle occur contiguously anywhere? -/
def listIncludes (needle : List Char) : List Char → Bool
  | [] => needle.isEmpty
  | c :: rest => beginsWith needle (c :: rest) || listIncludes needle rest

/-- The inbound request, reduced to what the handler reads: three headers and
the outcome of `req.json()` (`none` models a body that fails to parse). -/
structure Request where
  contentType : Option String
  xForwardedFor : Option String
  userAgent : Option String
  body : Option JsValue

/-- The handler's environment: configuration variables and the outcomes of the
two outbound calls.  `tsSuccess` is the truthiness of the verification
response's `success` field; `discordOk` is `discordRes.ok` (a 2xx status);
`discordErrText` is the relay's error body, which the source only logs. -/
structure Env where
  tsSuccess : Bool
  discordToken : Option String
  channelId : Option String
  discordOk : Bool
  discordErrText : String

/-- Truthiness of a configuration variable: absent or empty is falsy. -/
def envTruthy : Option String → Bool
  | none => false
  | some s => !s.isEmpty

/-- The observable outcome of one handler invocation: HTTP status, the JSON
body fields `ok` and `error`, and whether each outbound call was issued. -/
structure HandlerResult where
  status : Nat
  ok : Bool
  error : Option String
  verifyCalled : Bool
  relayCalled : Bool
deriving DecidableEq

/-- The process-wide `RATE_LIMIT` map (route.js line 7), with the absent-key
default `[]` of line 25 built in. -/
abbrev RateLimitMap := String → List Int

/-- The map at process start: no caller has any history. -/
def initialRateLimit : RateLimitMap := fun _ => []

/-- `contentType.includes("application/json")` from route.js line 15. -/
def contentTypeOk (req : Request) : Bool :=
  listIncludes "application/json".data ((req.contentType.getD "").data)

/-- The caller identifier of route.js line 20: the first comma-separated token
of the forwarded-address header, trimmed, falling back to `"0.0.0.0"` when the
header is absent or the token is empty (falsy). -/
def callerIp (req : Request) : String :=
  match req.xForwardedFor with
  | none => "0.0.0.0"
  | some h =>
    let tok := trim (h.data.takeWhile fun c => !(c == ','))
    if tok.isEmpty then "0.0.0.0" else String.mk tok

/-- `body || {}` from route.js line 43: a falsy parsed body is replaced by the
empty object before destructuring. -/
def parsedBody (bodyVal : JsValue) : JsValue :=
  if bodyVal.truthy = true then bodyVal else .obj []

/-- Route.js lines 36–109: everything after the rate limiter, none of which
touches the rate-limit map.  The argument is the outcome of `req.json()`.
Branches in source order: JSON parse failure, missing-fields check, Turnstile
verification, sanitization with the empty-message check, configuration check,
relay call.  `verifyCalled`/`relayCalled` record in which branches the
corresponding `fetch` of the source has already been issued. -/
def handleBody (env : Env) (body : Option JsValue) : HandlerResult :=
  match body with
  | none => ⟨400, false, some "Invalid JSON", false, false⟩
  | some bodyVal =>
    if ((parsedBody bodyVal).getField "message").truthy = false ∨
        ((parsedBody bodyVal).getField "message").isString = false ∨
        ((parsedBody bodyVal).getField "turnstileToken").truthy = false then
      ⟨400, false, some "Missing fields", false, false⟩
    else if env.tsSuccess = false then
      ⟨403, false, some "Bot detected", true, false⟩
    else if (sanitize ((parsedBody bodyVal).getField "message").asString).length = 0 then
      ⟨400, false, some "Empty message", true, false⟩
    else if envTruthy env.discordToken = false ∨ envTruthy env.channelId = false then
      ⟨500, false, some "Server misconfig", true, false⟩
    else if env.discordOk = false then
      ⟨502, false, some "Discord error", true, true⟩
    else
      ⟨200, true, none, true, true⟩

/-- `const recent = history.filter((t) => now - t < WINDOW_MS)` of route.js
line 26: the caller's stored timestamps restricted to the trailing window. -/
def recentOf (rl : RateLimitMap) (ip : String) (now : Int) : List Int :=
  (rl ip).filter fun t => decide (now - t < WINDOW_MS)

/-- The handler `POST` of route.js lines 11–115: content-type gate, then the
rate limiter (lines 24–33: filter the caller's stored timestamps to the
trailing window; three or more recent entries reject with 429 and leave the map
untouched, otherwise the current time is appended to the filtered list and
stored back), then `handleBody`. -/
def POST (env : Env) (req : Request) (rl : RateLimitMap) (now : Int) :
    HandlerResult × RateLimitMap :=
  if contentTypeOk req = true then
    if MAX_REQUESTS ≤ (recentOf rl (callerIp req) now).length then
      (⟨429, false, some "Too many requests", false, false⟩, rl)
    else
      (handleBody env req.body,
        fun k => if k = callerIp req then recentOf rl (callerIp req) now ++ [now] else rl k)
  else
    (⟨400, false, some "Invalid content type", false, false⟩, rl)

/-- Rate-limit maps reachable by running the handler from process start. -/
inductive Reachable : RateLimitMap → Prop
  | init : Reachable initialRateLimit
  | step (env : Env) (req : Request) (now : Int) {rl : RateLimitMap} :
      Reachable rl → Reachable (POST env req rl now).2

/-- Is there a `'>'` anywhere in the list? -/
def hasGt : List Char → Bool
  | [] => false
  | c :: rest => c == '>' || hasGt rest

/-- Does the list contain a substring matching `<[^>]*>`?  Such a match exists
exactly when some `'<'` has a `'>'` somewhere after it (the match from that
`'<'` to the first following `'>'`). -/
def hasTagMatch : List Char → Bool
  | [] => false
  | c :: rest => (c == '<' && hasGt rest) || hasTagMatch rest

/-- The `message` field the destructuring of route.js line 43 would read, for
stating facts about requests whose body parsed. -/
def effectiveMessage (req : Request) : JsValue :=
  match req.body with
  | none => .undefinedV
  | some bodyVal => (parsedBody bodyVal).getField "message"

/-- Sample environment: verification rejects. -/
def envStrict : Env := ⟨false, some "tkn", some "chan", true, "errtext"⟩

/-- Sample environment: everything succeeds. -/
def envHappy : Env := ⟨true, some "tkn", some "chan", true, "errtext"⟩

/-- Sample environment: verification succeeds, relay returns non-2xx. -/
def envRelayDown : Env := ⟨true, some "tkn", some "chan", false, "relay detail"⟩

/-- Sample body with both required fields present and valid. -/
def bodyValid : JsValue :=
  .obj [("message", .str "hello".data), ("turnstileToken", .str "tkn".data)]

/-- Sample body with a valid message but no `turnstileToken`. -/
def bodyNoToken : JsValue := .obj [("message", .str "hello".data)]

/-- Sample body whose `message` is the empty string. -/
def bodyEmptyMsg : JsValue :=
  .obj [("message", .str []), ("turnstileToken", .str "tkn".data)]

/-- Sample body whose `message` is whitespace only (sanitizes to empty). -/
def bodyBlankMsg : JsValue :=
  .obj [("message", .str "   ".data), ("turnstileToken", .str "tkn".data)]

/-- A JSON request carrying the given parsed body. -/
def mkReq (bodyVal : JsValue) : Request :=
  ⟨some "application/json", some "1.2.3.4", some "agent", some bodyVal⟩

/-- A JSON request whose body fails to parse. -/
def reqNoBody : Request :=
  ⟨some "application/json", some "1.2.3.4", some "agent", none⟩

/-- A rate-limit map in which every caller already has three stored hits at
time 0. -/
def rlFull : RateLimitMap := fun _ => [0, 0, 0]

/-! ### Sanitizer lemmas -/

theorem afterGt_length {l l' : List Char} (h : afterGt l = some l') :
    l'.length < l.length := by
  induction l with
  | nil => simp [afterGt] at h
  | cons c rest ih =>
    by_cases hc : c = '>'
    · simp only [afterGt, if_pos hc, Option.some.injEq] at h
      subst h
      simp
    · simp only [afterGt, if_neg hc] at h
      exact Nat.lt_trans (ih h) (by simp)

theorem afterGt_none_hasGt {l : List Char} (h : afterGt l = none) : hasGt l = false := by
  induction l with
  | nil => rfl
  | cons c rest ih =>
    by_cases hc : c = '>'
    · simp [afterGt, hc] at h
    · simp only [afterGt, if_neg hc] at h
      simp [hasGt, hc, ih h]

theorem hasTagMatch_of_hasGt_false {l : List Char} (h : hasGt l = false) :
    hasTagMatch l = false := by
  induction l with
  | nil => rfl
  | cons c rest ih =>
    simp only [hasGt, Bool.or_eq_false_iff] at h
    simp [hasTagMatch, h.1, h.2, ih h.2]

theorem hasTagMatch_stripTagsAux :
    ∀ (fuel : Nat) (l : List Char), l.length ≤ fuel →
      hasTagMatch (stripTagsAux l fuel) = false := by
  intro fuel
  induction fuel with
  | zero =>
    intro l hl
    have hnil : l = [] := List.eq_nil_of_length_eq_zero (Nat.le_zero.mp hl)
    subst hnil
    rfl
  | succ n ih =>
    intro l hl
    match l with
    | [] => rfl
    | c :: rest =>
      have hrest : rest.length ≤ n := by
        simp only [List.length_cons] at hl
        omega
      simp only [stripTagsAux]
      by_cases hc : c = '<'
      · rw [if_pos hc]
        cases hg : afterGt rest with
        | none =>
          have h1 := afterGt_none_hasGt hg
          simp [hasTagMatch, h1, hasTagMatch_of_hasGt_false h1]
        | some rest' =>
          have h2 := afterGt_length hg
          exact ih rest' (by omega)
      · rw [if_neg hc]
        simp [hasTagMatch, hc, ih rest hrest]

theorem hasTagMatch_stripTags (l : List Char) : hasTagMatch (stripTags l) = false :=
  hasTagMatch_stripTagsAux l.length l (Nat.le_refl _)

theorem hasGt_take {l : List Char} (n : Nat) (h : hasGt l = false) :
    hasGt (l.take n) = false := by
  induction l generalizing n with
  | nil => simp [hasGt, List.take_nil]
  | cons c rest ih =>
    cases n with
    | zero => rfl
    | succ m =>
      simp only [hasGt, Bool.or_eq_false_iff] at h
      simp only [List.take_succ_cons, hasGt, Bool.or_eq_false_iff]
      exact ⟨h.1, ih m h.2⟩

theorem hasTagMatch_take {l : List Char} (n : Nat) (h : hasTagMatch l = false) :
    hasTagMatch (l.take n) = false := by
  induction l generalizing n with
  | nil => simp [hasTagMatch, List.take_nil]
  | cons c rest ih =>
    cases n with
    | zero => rfl
    | succ m =>
      simp only [hasTagMatch, Bool.or_eq_false_iff, Bool.and_eq_false_iff] at h
      simp only [List.take_succ_cons, hasTagMatch, Bool.or_eq_false_iff,
        Bool.and_eq_false_iff]
      refine ⟨?_, ih m h.2⟩
      rcases h.1 with h1 | h1
      · exact Or.inl h1
      · exact Or.inr (hasGt_take m h1)

theorem hasGt_append (l m : List Char) : hasGt (l ++ m) = (hasGt l || hasGt m) := by
  induction l with
  | nil => simp [hasGt]
  | cons c rest ih => simp [hasGt, ih, Bool.or_assoc]

theorem hasTagMatch_append {l m : List Char} (hl : hasTagMatch l = false)
    (hm : hasTagMatch m = false) (hgm : hasGt m = false) :
    hasTagMatch (l ++ m) = false := by
  induction l with
  | nil => simpa using hm
  | cons c rest ih =>
    simp only [hasTagMatch, Bool.or_eq_false_iff, Bool.and_eq_false_iff] at hl
    simp only [List.cons_append, hasTagMatch, Bool.or_eq_false_iff,
      Bool.and_eq_false_iff, List.append_eq, hasGt_append, hgm, Bool.or_false]
    exact ⟨hl.1, ih hl.2⟩

/-! ### Handler lemmas -/

theorem handleBody_status_ne_429 (env : Env) (body : Option JsValue) :
    (handleBody env body).status ≠ 429 := by
  unfold handleBody
  repeat' split
  all_goals decide

theorem POST_fst_not_limited (env : Env) (req : Request) (rl : RateLimitMap) (now : Int)
    (hct : contentTypeOk req = true)
    (hroom : (recentOf rl (callerIp req) now).length < MAX_REQUESTS) :
    (POST env req rl now).1 = handleBody env req.body := by
  unfold POST
  rw [if_pos hct, if_neg (Nat.not_le.mpr hroom)]

theorem POST_snd_cases (env : Env) (req : Request) (rl : RateLimitMap) (now : Int)
    (k : String) :
    (POST env req rl now).2 k = rl k ∨
    ((recentOf rl k now).length < MAX_REQUESTS ∧
      (POST env req rl now).2 k = recentOf rl k now ++ [now]) := by
  unfold POST
  by_cases hct : contentTypeOk req = true
  · rw [if_pos hct]
    by_cases hfull : MAX_REQUESTS ≤ (recentOf rl (callerIp req) now).length
    · rw [if_pos hfull]
      exact Or.inl rfl
    · rw [if_neg hfull]
      by_cases hk : k = callerIp req
      · subst hk
        exact Or.inr ⟨Nat.lt_of_not_le hfull, by simp⟩
      · exact Or.inl (by simp [hk])
  · rw [if_neg hct]
    exact Or.inl rfl

theorem reachable_length_le {rl : RateLimitMap} (h : Reachable rl) :
    ∀ k, (rl k).length ≤ MAX_REQUESTS := by
  induction h with
  | init =>
    intro k
    simp [initialRateLimit, MAX_REQUESTS]
  | step env req now hrl ih =>
    intro k
    rcases POST_snd_cases env req _ now k with hc | ⟨hlt, hc⟩
    · rw [hc]
      exact ih k
    · rw [hc]
      simp only [List.length_append, List.length_cons, List.length_nil]
      omega

theorem isString_exists {v : JsValue} (h : v.isString = true) : ∃ s, v = .str s := by
  cases v <;> first | exact ⟨_, rfl⟩ | simp [JsValue.isString] at h

theorem truthy_str_ne_nil {s : List Char} (h : (JsValue.str s).truthy = true) :
    s ≠ [] := by
  intro hs
  subst hs
  simp [JsValue.truthy, List.isEmpty] at h

theorem POST_errText_irrelevant (ts : Bool) (tok chan : Option String) (ok : Bool)
    (txt txt' : String) (req : Request) (rl : RateLimitMap) (now : Int) :
    POST ⟨ts, tok, chan, ok, txt⟩ req rl now = POST ⟨ts, tok, chan, ok, txt'⟩ req rl now := rfl

/-! ### Claims -/

set_option maxRecDepth 8000

/-- C1: in the sequential model, for every caller, whenever the count of stored
timestamps `t` with `now - t < 10000` is already `MAX_REQUESTS` (3) or more the
request is rejected with HTTP 429, and otherwise it is admitted through the
rate-limit stage (the status is not 429) and the current timestamp is appended
to the (filtered) stored sequence, which therefore never holds more than 3
entries. -/
theorem rate_limiter_admits_at_most_three (env : Env) (req : Request) (rl : RateLimitMap)
    (now : Int) (hct : contentTypeOk req = true) :
    (MAX_REQUESTS ≤ (recentOf rl (callerIp req) now).length →
      (POST env req rl now).1.status = 429 ∧
      (POST env req rl now).1.error = some "Too many requests") ∧
    ((recentOf rl (callerIp req) now).length < MAX_REQUESTS →
      (POST env req rl now).1.status ≠ 429 ∧
      (POST env req rl now).2 (callerIp req) = recentOf rl (callerIp req) now ++ [now] ∧
      ((POST env req rl now).2 (callerIp req)).length ≤ MAX_REQUESTS) := by
  constructor
  · intro hfull
    unfold POST
    rw [if_pos hct, if_pos hfull]
    exact ⟨rfl, rfl⟩
  · intro hroom
    have h1 : (POST env req rl now).1 = handleBody env req.body :=
      POST_fst_not_limited env req rl now hct hroom
    have h2 : (POST env req rl now).2 (callerIp req) =
        recentOf rl (callerIp req) now ++ [now] := by
      unfold POST
      rw [if_pos hct, if_neg (Nat.not_le.mpr hroom)]
      simp
    refine ⟨by rw [h1]; exact handleBody_status_ne_429 env req.body, h2, ?_⟩
    rw [h2]
    simp only [List.length_append, List.length_cons, List.length_nil]
    omega

/-- C1 witness: from a fresh map, a request at time 5 is not rate limited and
its timestamp is stored. -/
theorem rate_limiter_admits_at_most_three_witness :
    (POST envHappy reqNoBody initialRateLimit 5).1.status ≠ 429 ∧
    (POST envHappy reqNoBody initialRateLimit 5).2 (callerIp reqNoBody) =
      recentOf initialRateLimit (callerIp reqNoBody) 5 ++ [5] ∧
    ((POST envHappy reqNoBody initialRateLimit 5).2 (callerIp reqNoBody)).length ≤
      MAX_REQUESTS :=
  (rate_limiter_admits_at_most_three envHappy reqNoBody initialRateLimit 5
    (by decide)).2 (by decide)

/-- C2 counterexample: the claim says the sanitization of the message and the
EmptyMessage check on its result occur before the human-verification call, so a
message sanitizing to empty would have to yield Empty message (400) with no
verification call.  The code instead issues the verification call first: for
the whitespace-only message `"   "` (which sanitizes to empty) with a failing
verification, the result is 403 Bot detected and `verifyCalled` is true. -/
theorem verification_precedes_sanitization_cex :
    sanitize "   ".data = [] ∧
    (POST envStrict (mkReq bodyBlankMsg) initialRateLimit 0).1 =
      ⟨403, false, some "Bot detected", true, false⟩ :=
  ⟨by decide, by decide⟩

/-- C2 amended: the stages run in the order request-shape validation, rate
limiting, JSON body parsing, field validation, human-verification call, input
sanitization (with the EmptyMessage check on its result), configuration check,
relay call; in particular sanitization and the EmptyMessage check happen only
after the human-verification call has been issued and has succeeded. -/
theorem stage_order (env : Env) (req : Request) (rl : RateLimitMap) (now : Int) :
    ((POST env req rl now).1.relayCalled = true →
      (POST env req rl now).1.verifyCalled = true) ∧
    ((POST env req rl now).1.verifyCalled = false →
      (POST env req rl now).1.relayCalled = false ∧
      ((POST env req rl now).1.status = 400 ∨ (POST env req rl now).1.status = 429)) ∧
    ((POST env req rl now).1.error = some "Empty message" →
      (POST env req rl now).1.verifyCalled = true ∧ env.tsSuccess = true ∧
      (POST env req rl now).1.relayCalled = false) ∧
    ((POST env req rl now).1.error = some "Missing fields" →
      (POST env req rl now).1.verifyCalled = false) := by
  unfold POST handleBody
  repeat' split
  all_goals simp_all

/-- C2 witness: a whitespace-only message with verification succeeding ends in
Empty message after the verification call was issued. -/
theorem stage_order_witness :
    (POST envHappy (mkReq bodyBlankMsg) initialRateLimit 0).1.verifyCalled = true ∧
    envHappy.tsSuccess = true ∧
    (POST envHappy (mkReq bodyBlankMsg) initialRateLimit 0).1.relayCalled = false :=
  (stage_order envHappy (mkReq bodyBlankMsg) initialRateLimit 0).2.2.1 (by decide)

/-- C3 counterexample: the claim says `"<script>alert(1)</script>hello"` maps
to `"hello"`; the code's regex strip removes only the two tags and yields
`"alert(1)hello"`. -/
theorem sanitizer_script_example_cex :
    sanitize "<script>alert(1)</script>hello".data = "alert(1)hello".data ∧
    "alert(1)hello".data ≠ "hello".data :=
  ⟨by decide, by decide⟩

/-- C3 amended: the sanitizer trims, removes every substring matching
`<[^>]*>` (inner text between tags is kept; a lone `<` with no following `>`
is left untouched), then truncates to 500 characters appending the marker, so
`"<script>alert(1)</script>hello"` maps to `"alert(1)hello"`, a string of 600
`'a'` maps to 500 `'a'` followed by the marker, and `"a<b"` is unchanged. -/
theorem sanitizer_examples :
    sanitize "<script>alert(1)</script>hello".data = "alert(1)hello".data ∧
    sanitize (List.replicate 600 'a') = List.replicate 500 'a' ++ TRUNCATION_MARKER ∧
    sanitize "a<b".data = "a<b".data :=
  ⟨by decide, by decide, by decide⟩

/-- C4: every sanitizer output contains no substring matching `<[^>]*>` (no
`'<'` in it is followed by a later `'>'`) and has length at most
500 + 15 = 515 characters. -/
theorem sanitize_output_invariant (s : List Char) :
    hasTagMatch (sanitize s) = false ∧ (sanitize s).length ≤ 515 := by
  have hnm : hasTagMatch (stripTags (trim s)) = false := hasTagMatch_stripTags _
  simp only [sanitize]
  by_cases h : 500 < (stripTags (trim s)).length
  · rw [if_pos h]
    constructor
    · exact hasTagMatch_append (hasTagMatch_take 500 hnm) (by decide) (by decide)
    · have h1 : (List.take 500 (stripTags (trim s))).length ≤ 500 := by
        rw [List.length_take]
        exact Nat.min_le_left _ _
      have h2 : TRUNCATION_MARKER.length = 15 := by decide
      rw [List.length_append, h2]
      omega
  · rw [if_neg h]
    exact ⟨hnm, by omega⟩

/-- C5: a request rejected with 429 leaves the whole rate-limit map exactly as
it was: the current timestamp is not recorded. -/
theorem rejected_request_preserves_state (env : Env) (req : Request) (rl : RateLimitMap)
    (now : Int) (hct : contentTypeOk req = true)
    (hfull : MAX_REQUESTS ≤ (recentOf rl (callerIp req) now).length) :
    (POST env req rl now).1.status = 429 ∧
    (POST env req rl now).1.error = some "Too many requests" ∧
    (POST env req rl now).2 = rl := by
  unfold POST
  rw [if_pos hct, if_pos hfull]
  exact ⟨rfl, rfl, rfl⟩

/-- C5 witness: a caller with three stored hits at time 0 is rejected at time 0
and the map is untouched. -/
theorem rejected_request_preserves_state_witness :
    (POST envHappy (mkReq bodyValid) rlFull 0).1.status = 429 ∧
    (POST envHappy (mkReq bodyValid) rlFull 0).1.error = some "Too many requests" ∧
    (POST envHappy (mkReq bodyValid) rlFull 0).2 = rlFull :=
  rejected_request_preserves_state envHappy (mkReq bodyValid) rlFull 0 (by decide) (by decide)

/-- C6: starting from the process-start map, after every access (admitted or
rejected) the sequence stored for the accessed caller key contains only
timestamps within the trailing `WINDOW_MS` window of that access. -/
theorem stored_history_within_window (env : Env) (req : Request) {rl : RateLimitMap}
    (now : Int) (h : Reachable rl) (hct : contentTypeOk req = true)
    (t : Int) (ht : t ∈ (POST env req rl now).2 (callerIp req)) :
    now - t < WINDOW_MS := by
  have hlen := reachable_length_le h (callerIp req)
  unfold POST at ht
  rw [if_pos hct] at ht
  by_cases hfull : MAX_REQUESTS ≤ (recentOf rl (callerIp req) now).length
  · rw [if_pos hfull] at ht
    replace ht : t ∈ rl (callerIp req) := ht
    have hsub : (recentOf rl (callerIp req) now).Sublist (rl (callerIp req)) :=
      List.filter_sublist _
    have hlen2 : (recentOf rl (callerIp req) now).length = (rl (callerIp req)).length :=
      Nat.le_antisymm hsub.length_le (Nat.le_trans hlen hfull)
    have heq := hsub.eq_of_length hlen2
    rw [← heq] at ht
    replace ht : t ∈ (rl (callerIp req)).filter (fun x => decide (now - x < WINDOW_MS)) := ht
    have hp := List.of_mem_filter ht
    exact of_decide_eq_true hp
  · rw [if_neg hfull] at ht
    replace ht : t ∈ recentOf rl (callerIp req) now ++ [now] := by simpa using ht
    rcases List.mem_append.mp ht with h1 | h1
    · replace h1 : t ∈ (rl (callerIp req)).filter (fun x => decide (now - x < WINDOW_MS)) := h1
      have hp := List.of_mem_filter h1
      exact of_decide_eq_true hp
    · have h2 : t = now := by simpa using h1
      subst h2
      simp only [WINDOW_MS]
      omega

/-- C6 witness: the timestamp 0 stored by a first request at time 0 is within
the window of that access. -/
theorem stored_history_within_window_witness : (0 : Int) - 0 < WINDOW_MS :=
  stored_history_within_window envHappy (mkReq bodyValid) 0 Reachable.init
    (by decide) 0 (by decide)

/-- C7: when the parsed body fails the field validation (missing or falsy
`message`, non-string `message`, or missing or falsy `turnstileToken`), the
handler returns 400 Missing fields and issues neither the verification call
nor the relay call. -/
theorem missing_fields_no_outbound_calls (env : Env) (req : Request) (rl : RateLimitMap)
    (now : Int) (bodyVal : JsValue)
    (hct : contentTypeOk req = true)
    (hroom : (recentOf rl (callerIp req) now).length < MAX_REQUESTS)
    (hbody : req.body = some bodyVal)
    (hbad : ((parsedBody bodyVal).getField "message").truthy = false ∨
            ((parsedBody bodyVal).getField "message").isString = false ∨
            ((parsedBody bodyVal).getField "turnstileToken").truthy = false) :
    (POST env req rl now).1 = ⟨400, false, some "Missing fields", false, false⟩ := by
  rw [POST_fst_not_limited env req rl now hct hroom, hbody]
  simp only [handleBody]
  rw [if_pos hbad]

/-- C7 witness: a valid message without `turnstileToken` yields Missing fields
with no outbound call. -/
theorem missing_fields_no_outbound_calls_witness :
    (POST envHappy (mkReq bodyNoToken) initialRateLimit 0).1 =
      ⟨400, false, some "Missing fields", false, false⟩ :=
  missing_fields_no_outbound_calls envHappy (mkReq bodyNoToken) initialRateLimit 0 bodyNoToken
    (by decide) (by decide) rfl (by decide)

/-- C8: when the human-verification service reports failure, the handler
returns 403 Bot detected after the verification call and never attempts the
relay call. -/
theorem verification_failure_stops_relay (env : Env) (req : Request) (rl : RateLimitMap)
    (now : Int) (bodyVal : JsValue)
    (hct : contentTypeOk req = true)
    (hroom : (recentOf rl (callerIp req) now).length < MAX_REQUESTS)
    (hbody : req.body = some bodyVal)
    (hfields : ¬(((parsedBody bodyVal).getField "message").truthy = false ∨
                 ((parsedBody bodyVal).getField "message").isString = false ∨
                 ((parsedBody bodyVal).getField "turnstileToken").truthy = false))
    (hts : env.tsSuccess = false) :
    (POST env req rl now).1 = ⟨403, false, some "Bot detected", true, false⟩ := by
  rw [POST_fst_not_limited env req rl now hct hroom, hbody]
  simp only [handleBody]
  rw [if_neg hfields, if_pos hts]

/-- C8 witness: a valid body with failing verification is rejected with 403 and
no relay call. -/
theorem verification_failure_stops_relay_witness :
    (POST envStrict (mkReq bodyValid) initialRateLimit 0).1 =
      ⟨403, false, some "Bot detected", true, false⟩ :=
  verification_failure_stops_relay envStrict (mkReq bodyValid) initialRateLimit 0 bodyValid
    (by decide) (by decide) rfl (by decide) rfl

/-- C9: when the relay endpoint reports a non-2xx status, the handler returns
502 with body exactly ok = false, error = "Discord error", and the result does
not depend on the relay's error text (which the source only logs). -/
theorem relay_failure_leaks_nothing (env : Env) (req : Request) (rl : RateLimitMap)
    (now : Int) (bodyVal : JsValue)
    (hct : contentTypeOk req = true)
    (hroom : (recentOf rl (callerIp req) now).length < MAX_REQUESTS)
    (hbody : req.body = some bodyVal)
    (hfields : ¬(((parsedBody bodyVal).getField "message").truthy = false ∨
                 ((parsedBody bodyVal).getField "message").isString = false ∨
                 ((parsedBody bodyVal).getField "turnstileToken").truthy = false))
    (hts : env.tsSuccess = true)
    (hclean : ¬(sanitize ((parsedBody bodyVal).getField "message").asString).length = 0)
    (hcfg : ¬(envTruthy env.discordToken = false ∨ envTruthy env.channelId = false))
    (hrelay : env.discordOk = false) :
    (POST env req rl now).1 = ⟨502, false, some "Discord error", true, true⟩ ∧
    ∀ txt : String,
      (POST ⟨env.tsSuccess, env.discordToken, env.channelId, env.discordOk, txt⟩
          req rl now).1 =
        (POST env req rl now).1 := by
  constructor
  · rw [POST_fst_not_limited env req rl now hct hroom, hbody]
    simp only [handleBody]
    rw [if_neg hfields, if_neg (by simp [hts]), if_neg hclean, if_neg hcfg, if_pos hrelay]
  · intro txt
    cases env
    rfl

/-- C9 witness: with the relay down, the caller sees 502 "Discord error" and
the same result whatever the relay's error text was. -/
theorem relay_failure_leaks_nothing_witness :
    (POST envRelayDown (mkReq bodyValid) initialRateLimit 0).1 =
      ⟨502, false, some "Discord error", true, true⟩ ∧
    (POST ⟨envRelayDown.tsSuccess, envRelayDown.discordToken, envRelayDown.channelId,
        envRelayDown.discordOk, "secret relay detail"⟩ (mkReq bodyValid)
        initialRateLimit 0).1 =
      (POST envRelayDown (mkReq bodyValid) initialRateLimit 0).1 := by
  have h := relay_failure_leaks_nothing envRelayDown (mkReq bodyValid) initialRateLimit 0
    bodyValid (by decide) (by decide) rfl (by decide) rfl (by decide) (by decide) rfl
  exact ⟨h.1, h.2 "secret relay detail"⟩

/-- C10: a parsed body whose `message` is the empty string fails the falsy
check and yields 400 Missing fields (not Empty message) with no outbound call;
and Empty message is only ever produced when the body's `message` field is a
non-empty string whose sanitized form is empty. -/
theorem empty_string_message_yields_missing_fields (env : Env) (req : Request)
    (rl : RateLimitMap) (now : Int) (bodyVal : JsValue)
    (hct : contentTypeOk req = true)
    (hroom : (recentOf rl (callerIp req) now).length < MAX_REQUESTS)
    (hbody : req.body = some bodyVal)
    (hmsg : (parsedBody bodyVal).getField "message" = .str []) :
    (POST env req rl now).1 = ⟨400, false, some "Missing fields", false, false⟩ ∧
    ∀ (env' : Env) (req' : Request) (rl' : RateLimitMap) (now' : Int),
      (POST env' req' rl' now').1.error = some "Empty message" →
      ∃ s : List Char, effectiveMessage req' = JsValue.str s ∧ s ≠ [] ∧ sanitize s = [] := by
  constructor
  · have hfalsy : ((parsedBody bodyVal).getField "message").truthy = false := by
      rw [hmsg]
      rfl
    rw [POST_fst_not_limited env req rl now hct hroom, hbody]
    simp only [handleBody]
    rw [if_pos (Or.inl hfalsy)]
  · intro env' req' rl' now' herr
    unfold POST at herr
    split at herr
    case isTrue =>
      split at herr
      case isTrue => simp at herr
      case isFalse =>
        replace herr : (handleBody env' req'.body).error = some "Empty message" := herr
        cases hb : req'.body with
        | none =>
          rw [hb] at herr
          simp [handleBody] at herr
        | some bv =>
          rw [hb] at herr
          simp only [handleBody] at herr
          split at herr
          case isTrue => simp at herr
          case isFalse hfl =>
            split at herr
            case isTrue => simp at herr
            case isFalse =>
              split at herr
              case isTrue hcln =>
                push_neg at hfl
                obtain ⟨h1, h2, _h3⟩ := hfl
                have hstr : ((parsedBody bv).getField "message").isString = true := by
                  cases hx : ((parsedBody bv).getField "message").isString
                  · exact absurd hx h2
                  · rfl
                have htr : ((parsedBody bv).getField "message").truthy = true := by
                  cases hx : ((parsedBody bv).getField "message").truthy
                  · exact absurd hx h1
                  · rfl
                obtain ⟨s, hs⟩ := isString_exists hstr
                refine ⟨s, ?_, truthy_str_ne_nil (hs ▸ htr), ?_⟩
                · unfold effectiveMessage
                  rw [hb]
                  exact hs
                · rw [hs] at hcln
                  exact List.length_eq_zero.mp hcln
              case isFalse =>
                split at herr
                case isTrue => simp at herr
                case isFalse =>
                  split at herr
                  case isTrue => simp at herr
                  case isFalse => simp at herr
    case isFalse => simp at herr

/-- C10 witness: a body with `message` equal to the empty string gets 400
Missing fields with no outbound call. -/
theorem empty_string_message_yields_missing_fields_witness :
    (POST envHappy (mkReq bodyEmptyMsg) initialRateLimit 0).1 =
      ⟨400, false, some "Missing fields", false, false⟩ :=
  (empty_string_message_yields_missing_fields envHappy (mkReq bodyEmptyMsg) initialRateLimit 0
    bodyEmptyMsg (by decide) (by decide) rfl rfl).1

end ContactRoute
